import Mathlib

/-!
Verification of the swift-quant repository core:
interval overlap counting (calculate_overlap_percentage.py) and the DASH
depletion metrics and statistics modules (dash_analyzer.py,
dash_statistics.py).

Numeric model: the Python code computes with IEEE floats whose inputs are
integer coverage counts and exact decimal constants, and every operation
performed is exact rational arithmetic except square roots.  We therefore
embed float values as either a NaN marker or an exact value:
`QFloat` (over ℚ, executable) for the square-root-free layer and `RFloat`
(over ℝ) where a standard deviation is involved.  Divisions by zero, which
numpy turns into inf or nan with a warning, are mapped to the NaN marker;
every division the code actually reaches is either guarded or has a
provably nonzero divisor, so the conflation of inf with NaN is never
observable in the theorems below.  No operation in the modelled code can
overflow to infinity from finite operands.
-/

/-- A float value in the square-root-free layer: NaN or an exact rational. -/
inductive QFloat where
  | nan : QFloat
  | fin : ℚ → QFloat
deriving DecidableEq

/-- Python float subtraction: NaN propagates. -/
def QFloat.sub : QFloat → QFloat → QFloat
  | .fin a, .fin b => .fin (a - b)
  | _, _ => .nan

/-- Python float division: NaN propagates; division by zero gives the
NaN marker (numpy emits inf or nan with a warning there; no guarded call
site in the sources divides by zero). -/
def QFloat.div : QFloat → QFloat → QFloat
  | .fin a, .fin b => if b = 0 then .nan else .fin (a / b)
  | _, _ => .nan

/-- Python `<` on floats: any comparison with NaN is false. -/
def QFloat.ltB : QFloat → QFloat → Bool
  | .fin a, .fin b => decide (a < b)
  | _, _ => false

/-- Python `min(a, b)`: returns `b` only when `b < a`, so NaN in the second
argument is kept out and NaN in the first argument is kept. -/
def QFloat.pyMin (a b : QFloat) : QFloat := if QFloat.ltB b a then b else a

/-- Python `max(a, b)`: returns `b` only when `a < b`. -/
def QFloat.pyMax (a b : QFloat) : QFloat := if QFloat.ltB a b then b else a

/-- A float value in the square-root layer: NaN or an exact real. -/
inductive RFloat where
  | nan : RFloat
  | fin : ℝ → RFloat

/-- Embed the rational float layer into the real one. -/
noncomputable def QFloat.toR : QFloat → RFloat
  | .nan => .nan
  | .fin q => .fin (q : ℝ)

/-- Float addition with NaN propagation. -/
noncomputable def RFloat.add : RFloat → RFloat → RFloat
  | .fin a, .fin b => .fin (a + b)
  | _, _ => .nan

/-- Float subtraction with NaN propagation. -/
noncomputable def RFloat.sub : RFloat → RFloat → RFloat
  | .fin a, .fin b => .fin (a - b)
  | _, _ => .nan

/-- Float multiplication with NaN propagation. -/
noncomputable def RFloat.mul : RFloat → RFloat → RFloat
  | .fin a, .fin b => .fin (a * b)
  | _, _ => .nan

open Classical in
/-- Float division: NaN propagates and division by zero gives NaN
(see the module comment on the inf/NaN conflation). -/
noncomputable def RFloat.div : RFloat → RFloat → RFloat
  | .fin a, .fin b => if b = 0 then .nan else .fin (a / b)
  | _, _ => .nan

/-- Float negation. -/
noncomputable def RFloat.neg : RFloat → RFloat
  | .fin a => .fin (-a)
  | .nan => .nan

/-- Float absolute value. -/
noncomputable def RFloat.abs : RFloat → RFloat
  | .fin a => .fin |a|
  | .nan => .nan

open Classical in
/-- numpy square root: NaN on NaN and on negative input. -/
noncomputable def RFloat.sqrtF : RFloat → RFloat
  | .fin a => if a < 0 then .nan else .fin (Real.sqrt a)
  | .nan => .nan

/-- Python `<` on float values as a proposition: false whenever NaN is
involved. -/
def RFloat.pyLt : RFloat → RFloat → Prop
  | .fin a, .fin b => a < b
  | _, _ => False

/-- The value is an actual (finite) number, not NaN. -/
def RFloat.isFin : RFloat → Prop
  | .fin _ => True
  | .nan => False

/-- `np.mean` of a list of rationals, exact part: sum over length
(callers guard emptiness through `npMeanQ` / `npMeanR`). -/
def qmean (xs : List ℚ) : ℚ := xs.sum / xs.length

/-- Population variance (`ddof = 0`), the exact value under `np.std(xs)^2`. -/
def pvarQ (xs : List ℚ) : ℚ :=
  ((xs.map fun x => (x - qmean xs) ^ 2).sum) / xs.length

/-- Sample variance (`ddof = 1`), exact part; meaningful for length ≥ 2. -/
def svarQ (xs : List ℚ) : ℚ :=
  ((xs.map fun x => (x - qmean xs) ^ 2).sum) / ((xs.length : ℚ) - 1)

/-- `np.mean` as a float value: NaN on the empty array. -/
def npMeanQ (xs : List ℚ) : QFloat :=
  if xs = [] then .nan else .fin (qmean xs)

/-- `np.mean` as a real float value: NaN on the empty array. -/
noncomputable def npMeanR (xs : List ℚ) : RFloat :=
  if xs = [] then .nan else .fin ((qmean xs : ℝ))

/-- `np.var(xs, ddof=1)`: NaN for fewer than two samples (0/0 or an
empty mean). -/
noncomputable def npVar1 (xs : List ℚ) : RFloat :=
  if xs.length ≤ 1 then .nan else .fin ((svarQ xs : ℝ))

/-- `np.std(xs, ddof=1)`: NaN for fewer than two samples. -/
noncomputable def npStd1 (xs : List ℚ) : RFloat :=
  if xs.length ≤ 1 then .nan else .fin (Real.sqrt (svarQ xs))

/-- Order-statistic median of a nonempty list: middle element, or the
average of the two middle elements for even length (`np.median`). -/
def medianQ (xs : List ℚ) : ℚ :=
  let s := xs.mergeSort fun a b => decide (a ≤ b)
  let n := s.length
  if n % 2 = 1 then s.getD (n / 2) 0
  else (s.getD (n / 2 - 1) 0 + s.getD (n / 2) 0) / 2

/-- Minimum of a nonempty list (`np.min`); junk 0 on `[]`, where the real
`np.min` raises `ValueError` (callers model that case as an error). -/
def minQ : List ℚ → ℚ
  | [] => 0
  | h :: t => t.foldl min h

/-- Maximum of a nonempty list (`np.max`); junk 0 on `[]`. -/
def maxQ : List ℚ → ℚ
  | [] => 0
  | h :: t => t.foldl max h

/-- `np.percentile(xs, p)` with the default linear interpolation, for a
nonempty list. -/
def percentileQ (xs : List ℚ) (p : ℚ) : ℚ :=
  let s := xs.mergeSort fun a b => decide (a ≤ b)
  let n := s.length
  let pos := ((n : ℚ) - 1) * p / 100
  let i := pos.floor.toNat
  let lo := s.getD i 0
  let hi := s.getD (min (i + 1) (n - 1)) 0
  lo + (pos - (i : ℚ)) * (hi - lo)

/-- Coverage counts as rationals. -/
def covQ (xs : List ℕ) : List ℚ := xs.map fun x : ℕ => (x : ℚ)

/-- `np.sum(xs == 0)` as a rational. -/
def qcount0 (xs : List ℕ) : ℚ := (xs.countP fun x => decide (x = 0) : ℚ)

/-!
calculate_overlap_percentage.py
-/

/-- `check_overlap(read_start, read_end, annotations)`
(calculate_overlap_percentage.py lines 107-128): scan the `(start, end,
name)` tuples in order; break as soon as `ann_start > read_end`; return
true on the first tuple with `read_start < ann_end and read_end >
ann_start`. -/
def check_overlap (read_start read_end : ℤ) (anns : List (ℤ × ℤ × String)) : Bool :=
  match anns with
  | [] => false
  | (ann_start, ann_end, _) :: rest =>
    if read_end < ann_start then false
    else if read_start < ann_end ∧ ann_start < read_end then true
    else check_overlap read_start read_end rest

/-- One aligned read, with the pysam attributes the script consumes. -/
structure BamRead where
  is_unmapped : Bool
  is_secondary : Bool
  is_supplementary : Bool
  is_proper_pair : Bool
  mapping_quality : ℕ
  reference_name : String
  reference_start : ℤ
  reference_end : ℤ

/-- The three `continue` filters of `calculate_overlap_percentage`
(lines 152-159): flag exclusion, minimum mapping quality, optional
proper-pair requirement. -/
def passes_filters (r : BamRead) (min_mapq : ℕ) (require_proper_pair : Bool) : Bool :=
  !(r.is_unmapped || r.is_secondary || r.is_supplementary)
    && !(decide (r.mapping_quality < min_mapq))
    && !(require_proper_pair && !r.is_proper_pair)

/-- Overlap resolution for one read against the per-chromosome index
(lines 169-171): `if chrom in annotations` then `check_overlap`, else the
read does not overlap.  A chromosome absent from the index yields false. -/
def read_overlaps (annIndex : List (String × List (ℤ × ℤ × String)))
    (chrom : String) (read_start read_end : ℤ) : Bool :=
  match annIndex.lookup chrom with
  | some lst => check_overlap read_start read_end lst
  | none => false

/-- Loop body of `calculate_overlap_percentage` on the running
`(total_reads, overlapping_reads)` pair. -/
def count_read (annIndex : List (String × List (ℤ × ℤ × String)))
    (min_mapq : ℕ) (require_proper_pair : Bool)
    (acc : ℕ × ℕ) (r : BamRead) : ℕ × ℕ :=
  if passes_filters r min_mapq require_proper_pair then
    (acc.1 + 1,
      if read_overlaps annIndex r.reference_name r.reference_start r.reference_end
      then acc.2 + 1 else acc.2)
  else acc

/-- `calculate_overlap_percentage` (lines 144-179) over the fetched reads:
count filtered reads and overlapping reads, and report the percentage,
guarded to 0 when no read passed the filters. -/
def calculate_overlap_percentage (reads : List BamRead)
    (annIndex : List (String × List (ℤ × ℤ × String)))
    (min_mapq : ℕ) (require_proper_pair : Bool) : ℕ × ℕ × ℚ :=
  let tally := reads.foldl (count_read annIndex min_mapq require_proper_pair) (0, 0)
  (tally.1, tally.2,
    if 0 < tally.1 then (tally.2 : ℚ) / (tally.1 : ℚ) * 100 else 0)

/-!
dash_analyzer.py
-/

/-- `GRNATarget` (dash_analyzer.py lines 15-30); the Python field `end` is
called `stop` here because `end` is a Lean keyword. -/
structure GRNATarget where
  name : String
  chrom : String
  start : ℤ
  stop : ℤ
  sequence : String
  strand : String

/-- `DepletionMetrics` as produced by the analyzer: every field is a float
and the mean and median can be NaN, so all six numeric fields live in the
NaN-tracking type. -/
structure DepletionMetricsR where
  grna_name : String
  target_region : String
  mean_coverage : RFloat
  median_coverage : RFloat
  depletion_efficiency : RFloat
  coverage_uniformity : RFloat
  zero_coverage_fraction : RFloat
  coefficient_of_variation : RFloat

/-- `DASHAnalyzer.get_coverage` (lines 89-110): an `end - start` zero
array, each pileup column with `start <= pos < end` writing its depth at
`pos - start` (a later column for the same position overwrites).  The
pysam pileup source is passed in as explicit `(position, depth)` pairs. -/
def get_coverage (start stop : ℤ) (cols : List (ℤ × ℕ)) : List ℕ :=
  (List.range (stop - start).toNat).map fun i : ℕ =>
    ((cols.filter fun c => decide (c.1 = start + (i : ℤ))).foldl (fun _ c => c.2) 0)

/-- `DASHAnalyzer.calculate_uniformity` (lines 112-130): 0 for an empty
array or zero mean, else `1 / (1 + cv)` with `cv = np.std(c)/np.mean(c)`
(population standard deviation). -/
noncomputable def calculate_uniformity (coverage : List ℕ) : ℝ :=
  if coverage = [] ∨ qmean (covQ coverage) = 0 then 0
  else 1 / (1 + Real.sqrt (pvarQ (covQ coverage)) / (qmean (covQ coverage) : ℝ))

/-- `DASHAnalyzer.calculate_depletion_efficiency` (lines 132-160).  With a
control: return 0 if `control_mean == 0` (NaN compares unequal to 0), else
`max(0.0, min(1.0, 1.0 - treated_mean / control_mean))` with Python's
`min`/`max`.  Without a control: the zero-coverage fraction, 0 on empty. -/
def calculate_depletion_efficiency (treated : List ℕ) (control : Option (List ℕ)) : QFloat :=
  match control with
  | some c =>
    let treated_mean := npMeanQ (covQ treated)
    let control_mean := npMeanQ (covQ c)
    if control_mean = .fin 0 then .fin 0
    else QFloat.pyMax (.fin 0)
      (QFloat.pyMin (.fin 1) (QFloat.sub (.fin 1) (QFloat.div treated_mean control_mean)))
  | none =>
    if treated.length = 0 then .fin 0
    else .fin (qcount0 treated / (treated.length : ℚ))

/-- `np.mean` of a coverage array. -/
noncomputable def npMeanN (xs : List ℕ) : RFloat := npMeanR (covQ xs)

/-- `np.median` of a coverage array: NaN on empty. -/
noncomputable def npMedianN (xs : List ℕ) : RFloat :=
  if xs = [] then .nan else .fin ((medianQ (covQ xs) : ℝ))

open Classical in
/-- `DASHAnalyzer.analyze_grna_target` (lines 162-198), with the pysam
pileup sources for the treated and (optional) control BAM passed in as
explicit column lists.  Mirrors the source line by line: mean, median,
uniformity, depletion efficiency, zero fraction (guarded on length), and
`cv = np.std(t)/mean if mean > 0 else 0` (false for a NaN mean). -/
noncomputable def analyze_grna_target (target : GRNATarget)
    (treatedCols : List (ℤ × ℕ)) (controlCols : Option (List (ℤ × ℕ))) :
    DepletionMetricsR :=
  let treated_cov := get_coverage target.start target.stop treatedCols
  let control_cov := controlCols.map (get_coverage target.start target.stop)
  let mean_cov := npMeanN treated_cov
  { grna_name := target.name
    target_region :=
      target.chrom ++ ":" ++ toString target.start ++ "-" ++ toString target.stop
    mean_coverage := mean_cov
    median_coverage := npMedianN treated_cov
    depletion_efficiency := (calculate_depletion_efficiency treated_cov control_cov).toR
    coverage_uniformity := .fin (calculate_uniformity treated_cov)
    zero_coverage_fraction :=
      .fin (if 0 < treated_cov.length
            then ((qcount0 treated_cov / (treated_cov.length : ℚ) : ℚ) : ℝ) else 0)
    coefficient_of_variation :=
      if RFloat.pyLt (.fin 0) mean_cov
      then .fin (Real.sqrt (pvarQ (covQ treated_cov)) / (qmean (covQ treated_cov) : ℝ))
      else .fin 0 }

/-- Modelled from the spec: the "explicit all-zero default metrics record"
the specification says an empty coverage array yields.  No such record is
built anywhere in dash_analyzer.py. -/
def zero_metrics_record (t : GRNATarget) : DepletionMetricsR :=
  { grna_name := t.name
    target_region := t.chrom ++ ":" ++ toString t.start ++ "-" ++ toString t.stop
    mean_coverage := .fin 0
    median_coverage := .fin 0
    depletion_efficiency := .fin 0
    coverage_uniformity := .fin 0
    zero_coverage_fraction := .fin 0
    coefficient_of_variation := .fin 0 }

/-- Modelled from the spec: `clip(x, 0, 1)`. -/
def clip01 (x : ℚ) : ℚ := max 0 (min 1 x)

/-!
dash_statistics.py
-/

/-- `DepletionMetrics` records as consumed by the statistics layer; the
metric fields are finite float values, embedded as exact rationals. -/
structure DepletionMetrics where
  grna_name : String
  target_region : String
  mean_coverage : ℚ
  median_coverage : ℚ
  depletion_efficiency : ℚ
  coverage_uniformity : ℚ
  zero_coverage_fraction : ℚ
  coefficient_of_variation : ℚ
deriving DecidableEq

/-- `ComparisonResult` (dash_statistics.py lines 17-42).  `significant`
stores the truth value of `p_value < alpha`. -/
structure ComparisonResult where
  metric_name : String
  group1_mean : RFloat
  group2_mean : RFloat
  group1_std : RFloat
  group2_std : RFloat
  t_statistic : RFloat
  p_value : RFloat
  significant : Prop
  effect_size : RFloat

/-- Pooled variance `((n1-1)*var1 + (n2-1)*var2) / (n1 + n2 - 2)` shared
by `calculate_cohens_d` (line 64) and scipy's equal-variance t test, with
sample variances and Python integer arithmetic embedded in ℝ. -/
noncomputable def pooledVarT (xs ys : List ℚ) : RFloat :=
  RFloat.div
    (RFloat.add (RFloat.mul (.fin ((xs.length : ℝ) - 1)) (npVar1 xs))
                (RFloat.mul (.fin ((ys.length : ℝ) - 1)) (npVar1 ys)))
    (.fin ((xs.length : ℝ) + (ys.length : ℝ) - 2))

open Classical in
/-- `DASHStatistics.calculate_cohens_d` (lines 48-69): 0 when the pooled
standard deviation equals 0 (NaN compares unequal), else the standardized
mean difference. -/
noncomputable def calculate_cohens_d (xs ys : List ℚ) : RFloat :=
  let pooled_std := RFloat.sqrtF (pooledVarT xs ys)
  if pooled_std = .fin 0 then .fin 0
  else RFloat.div (RFloat.sub (npMeanR xs) (npMeanR ys)) pooled_std

/-- `scipy.stats.ttest_ind(xs, ys)` t statistic (equal variance):
`(mean xs - mean ys) / sqrt(svar * (1/n1 + 1/n2))`. -/
noncomputable def tStatistic (xs ys : List ℚ) : RFloat :=
  RFloat.div (RFloat.sub (npMeanR xs) (npMeanR ys))
    (RFloat.sqrtF (RFloat.mul (pooledVarT xs ys)
      (.fin (1 / (xs.length : ℝ) + 1 / (ys.length : ℝ)))))

/-- The fixed ordered metric list of `compare_groups` (lines 86-91). -/
def metricAttrs : List ((DepletionMetrics → ℚ) × String) :=
  [(fun m => m.depletion_efficiency, "Depletion Efficiency"),
   (fun m => m.coverage_uniformity, "Coverage Uniformity"),
   (fun m => m.zero_coverage_fraction, "Zero Coverage Fraction"),
   (fun m => m.coefficient_of_variation, "Coefficient of Variation")]

/-- One iteration of the `compare_groups` loop (lines 95-115).  scipy's
two-sided p value is `2 * sf(|t|, n1 + n2 - 2)` with `sf` the Student-t
survival function, an external real-analytic function the embedding is
parametric in. -/
noncomputable def mkComparison (sf : RFloat → ℤ → RFloat)
    (g1 g2 : List DepletionMetrics) (alpha : ℚ)
    (attr : DepletionMetrics → ℚ) (nm : String) : ComparisonResult :=
  let v1 := g1.map attr
  let v2 := g2.map attr
  let t := tStatistic v1 v2
  let p := RFloat.mul (.fin 2) (sf (RFloat.abs t) ((g1.length : ℤ) + (g2.length : ℤ) - 2))
  { metric_name := nm
    group1_mean := npMeanR v1
    group2_mean := npMeanR v2
    group1_std := npStd1 v1
    group2_std := npStd1 v2
    t_statistic := t
    p_value := p
    significant := RFloat.pyLt p (.fin (alpha : ℝ))
    effect_size := calculate_cohens_d v1 v2 }

/-- `DASHStatistics.compare_groups` (lines 71-117), parametric in the
Student-t survival function `sf`. -/
noncomputable def compare_groups (sf : RFloat → ℤ → RFloat)
    (g1 g2 : List DepletionMetrics) (alpha : ℚ) : List ComparisonResult :=
  metricAttrs.map fun pr => mkComparison sf g1 g2 alpha pr.1 pr.2

/-- The result of swapping the two groups, as the specification describes
it: means and standard deviations swapped, t statistic and effect size
negated, metric name, p value and significance unchanged. -/
noncomputable def swapComparison (r : ComparisonResult) : ComparisonResult :=
  { metric_name := r.metric_name
    group1_mean := r.group2_mean
    group2_mean := r.group1_mean
    group1_std := r.group2_std
    group2_std := r.group1_std
    t_statistic := RFloat.neg r.t_statistic
    p_value := r.p_value
    significant := r.significant
    effect_size := RFloat.neg r.effect_size }

/-- A concrete stand-in for the Student-t survival function, used only to
exercise `compare_groups` at concrete inputs; it propagates NaN as the
real survival function does. -/
def sfId : RFloat → ℤ → RFloat := fun t _ => t

/-- The weight table of `rank_grnas` (lines 133-139). -/
structure Weights where
  depletion : ℚ
  uniformity : ℚ
  zero_coverage : ℚ
  cv : ℚ

/-- The default weights `{depletion: 0.4, uniformity: 0.3,
zero_coverage: 0.2, cv: 0.1}`. -/
def defaultWeights : Weights :=
  { depletion := 2 / 5, uniformity := 3 / 10, zero_coverage := 1 / 5, cv := 1 / 10 }

/-- The composite score of `rank_grnas` (lines 143-156). -/
def compositeScore (w : Weights) (m : DepletionMetrics) : ℚ :=
  w.depletion * m.depletion_efficiency
    + w.uniformity * m.coverage_uniformity
    + w.zero_coverage * m.zero_coverage_fraction
    + w.cv * (1 / (1 + m.coefficient_of_variation))

/-- One row of the score table built at lines 158-165. -/
structure ScoreRow where
  gRNA_name : String
  composite_score : ℚ
  depletion_efficiency : ℚ
  coverage_uniformity : ℚ
  zero_coverage_fraction : ℚ
  coefficient_of_variation : ℚ
deriving DecidableEq

/-- Build the score row for one metrics record. -/
def scoreRow (w : Weights) (m : DepletionMetrics) : ScoreRow :=
  { gRNA_name := m.grna_name
    composite_score := compositeScore w m
    depletion_efficiency := m.depletion_efficiency
    coverage_uniformity := m.coverage_uniformity
    zero_coverage_fraction := m.zero_coverage_fraction
    coefficient_of_variation := m.coefficient_of_variation }

/-- `df.sort_values(key, ascending=False)`: pandas argsorts ascending and
then reverses the index order (`pandas.core.sorting.nargsort`), so a
stable ascending sort followed by a reversal.  numpy's default quicksort
is unstable in general; on the small frames exercised here it reduces to
an insertion sort, which this stable model reproduces exactly, ties
ending up in reversed input order after the reversal. -/
def sortDesc {α : Type} (key : α → ℚ) (l : List α) : List α :=
  (l.mergeSort fun a b => decide (key a ≤ key b)).reverse

/-- One row of the returned frame, the score row plus the contiguous
1-based rank assigned after sorting (line 169). -/
structure RankRow where
  rank : ℕ
  gRNA_name : String
  composite_score : ℚ
  depletion_efficiency : ℚ
  coverage_uniformity : ℚ
  zero_coverage_fraction : ℚ
  coefficient_of_variation : ℚ
deriving DecidableEq

/-- `df['rank'] = range(1, len(df) + 1)` after the sort. -/
def attachRanks : ℕ → List ScoreRow → List RankRow
  | _, [] => []
  | k, s :: rest =>
    { rank := k
      gRNA_name := s.gRNA_name
      composite_score := s.composite_score
      depletion_efficiency := s.depletion_efficiency
      coverage_uniformity := s.coverage_uniformity
      zero_coverage_fraction := s.zero_coverage_fraction
      coefficient_of_variation := s.coefficient_of_variation } :: attachRanks (k + 1) rest

/-- Drop the rank column again. -/
def stripRank (r : RankRow) : ScoreRow :=
  { gRNA_name := r.gRNA_name
    composite_score := r.composite_score
    depletion_efficiency := r.depletion_efficiency
    coverage_uniformity := r.coverage_uniformity
    zero_coverage_fraction := r.zero_coverage_fraction
    coefficient_of_variation := r.coefficient_of_variation }

/-- The Python exceptions the statistics layer can surface.
`keyError` is what pandas raises when a named column is missing;
`valueError` is what `np.min` raises on a zero-size array;
`emptyInputError` is the exception the specification names — nothing in
the code constructs it, and it is included only so that its absence is
expressible. -/
inductive PyError where
  | valueError : PyError
  | emptyInputError : PyError
  | keyError : PyError
deriving DecidableEq

/-- The success path of `rank_grnas`: build the score rows, sort
descending by composite score and assign ranks 1..n. -/
def rank_rows (w : Weights) (metrics_list : List DepletionMetrics) : List RankRow :=
  attachRanks 1 (sortDesc (fun r => r.composite_score) (metrics_list.map (scoreRow w)))

/-- `DASHStatistics.rank_grnas` (lines 119-172).  On an empty metrics
list `pd.DataFrame([])` has no columns at all, so
`df.sort_values('composite_score', ascending=False)` at line 168 raises
`KeyError`; otherwise the frame is sorted and ranked. -/
def rank_grnas (w : Weights) (metrics_list : List DepletionMetrics) :
    Except PyError (List RankRow) :=
  if metrics_list = [] then .error .keyError
  else .ok (rank_rows w metrics_list)

/-- Population mean of the depletion efficiencies
(`identify_outliers`, line 190). -/
def depletion_mean (ms : List DepletionMetrics) : ℚ :=
  qmean (ms.map fun m => m.depletion_efficiency)

/-- Population standard deviation of the depletion efficiencies
(`np.std`, line 191). -/
noncomputable def depletion_std (ms : List DepletionMetrics) : ℝ :=
  Real.sqrt (pvarQ (ms.map fun m => m.depletion_efficiency))

/-- Population mean of the coverage uniformities (line 192). -/
def uniformity_mean (ms : List DepletionMetrics) : ℚ :=
  qmean (ms.map fun m => m.coverage_uniformity)

/-- Population standard deviation of the coverage uniformities (line 193). -/
noncomputable def uniformity_std (ms : List DepletionMetrics) : ℝ :=
  Real.sqrt (pvarQ (ms.map fun m => m.coverage_uniformity))

open Classical in
/-- Depletion z-score of one record (line 199): 0 when the standard
deviation is not positive. -/
noncomputable def depletionZ (ms : List DepletionMetrics) (m : DepletionMetrics) : ℝ :=
  if 0 < depletion_std ms
  then ((m.depletion_efficiency : ℝ) - (depletion_mean ms : ℝ)) / depletion_std ms
  else 0

open Classical in
/-- Uniformity z-score of one record (line 200). -/
noncomputable def uniformityZ (ms : List DepletionMetrics) (m : DepletionMetrics) : ℝ :=
  if 0 < uniformity_std ms
  then ((m.coverage_uniformity : ℝ) - (uniformity_mean ms : ℝ)) / uniformity_std ms
  else 0

/-- High performer condition (line 203): both z-scores above `n_std`. -/
def isHighPerformer (ms : List DepletionMetrics) (n_std : ℝ) (m : DepletionMetrics) : Prop :=
  depletionZ ms m > n_std ∧ uniformityZ ms m > n_std

/-- Low performer condition (line 207): either z-score below `-n_std`. -/
def isLowPerformer (ms : List DepletionMetrics) (n_std : ℝ) (m : DepletionMetrics) : Prop :=
  depletionZ ms m < -n_std ∨ uniformityZ ms m < -n_std

open Classical in
/-- `DASHStatistics.identify_outliers` (lines 174-213): the names of the
high performers and of the low performers, in input order. -/
noncomputable def identify_outliers (ms : List DepletionMetrics) (n_std : ℝ) :
    List String × List String :=
  ((ms.filter fun m => decide (isHighPerformer ms n_std m)).map fun m => m.grna_name,
   (ms.filter fun m => decide (isLowPerformer ms n_std m)).map fun m => m.grna_name)

/-- The per-metric value columns of `correlation_analysis`
(lines 226-232): the four depletion metrics plus the mean coverage. -/
def corr_columns (ms : List DepletionMetrics) : List (String × List ℚ) :=
  [("Depletion Efficiency", ms.map fun m => m.depletion_efficiency),
   ("Coverage Uniformity", ms.map fun m => m.coverage_uniformity),
   ("Zero Coverage Fraction", ms.map fun m => m.zero_coverage_fraction),
   ("Coefficient of Variation", ms.map fun m => m.coefficient_of_variation),
   ("Mean Coverage", ms.map fun m => m.mean_coverage)]

/-- Exact part of the Pearson covariance numerator over n. -/
def pcovQ (xs ys : List ℚ) : ℚ :=
  (((xs.zip ys).map fun p => (p.1 - qmean xs) * (p.2 - qmean ys)).sum) / xs.length

open Classical in
/-- Pearson correlation of two equal-length columns as `DataFrame.corr`
computes it: NaN when there are no rows or one column is constant
(zero standard deviation), never an error. -/
noncomputable def pearsonR (xs ys : List ℚ) : RFloat :=
  if xs.length = 0 then .nan
  else
    let sx := Real.sqrt (pvarQ xs)
    let sy := Real.sqrt (pvarQ ys)
    if sx * sy = 0 then .nan
    else .fin ((pcovQ xs ys : ℝ) / (sx * sy))

/-- `DASHStatistics.correlation_analysis` (lines 215-237): the 5 x 5
matrix of pairwise Pearson correlations of the metric columns.
`DataFrame.corr` is total: an empty metrics list yields a matrix of NaN,
not an exception. -/
noncomputable def correlation_analysis (ms : List DepletionMetrics) : List (List RFloat) :=
  (corr_columns ms).map fun c1 => (corr_columns ms).map fun c2 => pearsonR c1.2 c2.2

/-- The seven descriptive statistics of one metric column
(lines 262-270). -/
structure SummaryRow where
  mean : ℚ
  median : ℚ
  std : ℝ
  smin : ℚ
  smax : ℚ
  q25 : ℚ
  q75 : ℚ

/-- Descriptive statistics of one nonempty column. -/
noncomputable def summary_row (vals : List ℚ) : SummaryRow :=
  { mean := qmean vals
    median := medianQ vals
    std := Real.sqrt (pvarQ vals)
    smin := minQ vals
    smax := maxQ vals
    q25 := percentileQ vals 25
    q75 := percentileQ vals 75 }

/-- The six metric columns of `generate_summary_statistics`
(lines 250-257). -/
def summary_columns (ms : List DepletionMetrics) : List (String × List ℚ) :=
  [("Depletion Efficiency", ms.map fun m => m.depletion_efficiency),
   ("Coverage Uniformity", ms.map fun m => m.coverage_uniformity),
   ("Zero Coverage Fraction", ms.map fun m => m.zero_coverage_fraction),
   ("Coefficient of Variation", ms.map fun m => m.coefficient_of_variation),
   ("Mean Coverage", ms.map fun m => m.mean_coverage),
   ("Median Coverage", ms.map fun m => m.median_coverage)]

/-- `DASHStatistics.generate_summary_statistics` (lines 239-272).  Every
column has the length of the metrics list; on an empty list `np.mean`,
`np.median` and `np.std` only warn and return NaN, but `np.min` raises
`ValueError` on a zero-size array, so the call fails with `ValueError`
exactly when the metrics list is empty. -/
noncomputable def generate_summary_statistics (ms : List DepletionMetrics) :
    Except PyError (List (String × SummaryRow)) :=
  if ms = [] then .error .valueError
  else .ok ((summary_columns ms).map fun c => (c.1, summary_row c.2))

/-!
Concrete sample data for witnesses and counterexamples.
-/

/-- The two-interval chromosome of the specification's worked example. -/
def demoAnns : List (ℤ × ℤ × String) := [(100, 200, "geneA"), (300, 400, "geneB")]

/-- A concrete metrics record. -/
def mSampleA : DepletionMetrics :=
  { grna_name := "gA", target_region := "chr1:100-200"
    mean_coverage := 3, median_coverage := 3
    depletion_efficiency := 1 / 2, coverage_uniformity := 1 / 2
    zero_coverage_fraction := 1 / 2, coefficient_of_variation := 1 }

/-- A second record with different name and metrics but, for the tie
counterexample, the same composite score as `mSampleA`. -/
def mSampleB : DepletionMetrics :=
  { grna_name := "gB", target_region := "chr1:300-400"
    mean_coverage := 7, median_coverage := 6
    depletion_efficiency := 1 / 2, coverage_uniformity := 1 / 2
    zero_coverage_fraction := 1 / 2, coefficient_of_variation := 1 }

/-- A record with a strictly smaller composite score than `mSampleA`. -/
def mSampleC : DepletionMetrics :=
  { grna_name := "gC", target_region := "chr2:10-50"
    mean_coverage := 9, median_coverage := 8
    depletion_efficiency := 1 / 4, coverage_uniformity := 1 / 4
    zero_coverage_fraction := 1 / 4, coefficient_of_variation := 1 }

/-- An empty gRNA target (start equals end). -/
def tEmpty : GRNATarget :=
  { name := "gRNA1", chrom := "chr1", start := 100, stop := 100
    sequence := "", strand := "+" }

/-!
Theorems.
-/

theorem QFloat.sub_fin_fin (a b : ℚ) : QFloat.sub (.fin a) (.fin b) = .fin (a - b) := rfl

theorem QFloat.div_fin_fin (a b : ℚ) (h : b ≠ 0) :
    QFloat.div (.fin a) (.fin b) = .fin (a / b) := by
  simp [QFloat.div, h]

/-- Python's `max(0.0, min(1.0, x))` on a finite value is `clip(x, 0, 1)`. -/
theorem pyClip_eq (x : ℚ) :
    QFloat.pyMax (.fin 0) (QFloat.pyMin (.fin 1) (.fin x)) = .fin (clip01 x) := by
  unfold QFloat.pyMax QFloat.pyMin QFloat.ltB clip01
  by_cases h1 : x < 1
  · simp only [decide_eq_true_eq, if_pos h1]
    by_cases h2 : (0 : ℚ) < x
    · simp [h2, max_eq_right (min_le_of_right_le h1.le).le, min_eq_right h1.le,
        max_eq_right h2.le]
    · simp [h2, min_eq_right h1.le, max_eq_left (le_of_not_lt h2)]
  · simp only [decide_eq_true_eq, if_neg h1]
    have h1' : (1 : ℚ) ≤ x := le_of_not_lt h1
    simp [min_eq_left h1', max_eq_right (by norm_num : (0:ℚ) ≤ 1)]

/-- Soundness of the sorted scan with early exit: on a list sorted
ascending by interval start, `check_overlap` decides exactly the
existential half-open overlap test. -/
theorem check_overlap_iff_aux (rs re : ℤ) :
    ∀ (anns : List (ℤ × ℤ × String)), anns.Pairwise (fun a b => a.1 ≤ b.1) →
      (check_overlap rs re anns = true ↔ ∃ p ∈ anns, rs < p.2.1 ∧ p.1 < re) := by
  intro anns
  induction anns with
  | nil => intro _; simp [check_overlap]
  | cons hd tl ih =>
    intro hp
    obtain ⟨s, e, nm⟩ := hd
    rw [List.pairwise_cons] at hp
    obtain ⟨hhead, htail⟩ := hp
    by_cases h1 : re < s
    · rw [check_overlap]
      simp only [if_pos h1, List.mem_cons]
      constructor
      · intro h; cases h
      · rintro ⟨p, (rfl | hmem), _, h3⟩
        · exact absurd h3 (by simpa using le_of_lt h1)
        · have hs : s ≤ p.1 := hhead p hmem
          exact absurd h3 (not_lt.2 (le_of_lt (lt_of_lt_of_le h1 hs)))
    · by_cases h2 : rs < e ∧ s < re
      · rw [check_overlap]
        simp only [if_neg h1, if_pos h2]
        exact ⟨fun _ => ⟨(s, e, nm), List.mem_cons_self _ _, h2.1, h2.2⟩, fun _ => trivial⟩
      · rw [check_overlap]
        simp only [if_neg h1, if_neg h2]
        rw [ih htail]
        constructor
        · rintro ⟨p, hm, hx⟩
          exact ⟨p, List.mem_cons_of_mem _ hm, hx⟩
        · rintro ⟨p, hm, hx, hy⟩
          rcases List.mem_cons.1 hm with rfl | hm
          · exact absurd ⟨hx, hy⟩ h2
          · exact ⟨p, hm, hx, hy⟩

/-- Claim C1: on a list of intervals sorted ascending by start,
`check_overlap(readStart, readEnd)` returns true exactly when some
interval `(annStart, annEnd)` satisfies `readStart < annEnd` and
`readEnd > annStart` — the early exit once `annStart > readEnd` never
changes the result — and on `{(100,200),(300,400)}` the queries
`(150,160)`, `(250,260)`, `(199,205)` return true, false, true. -/
theorem check_overlap_spec :
    (∀ (rs re : ℤ) (anns : List (ℤ × ℤ × String)),
        anns.Pairwise (fun a b => a.1 ≤ b.1) →
        (check_overlap rs re anns = true ↔ ∃ p ∈ anns, rs < p.2.1 ∧ p.1 < re))
    ∧ check_overlap 150 160 demoAnns = true
    ∧ check_overlap 250 260 demoAnns = false
    ∧ check_overlap 199 205 demoAnns = true :=
  ⟨fun rs re anns h => check_overlap_iff_aux rs re anns h, by decide, by decide, by decide⟩

/-- Witness for C1 at the concrete sorted demo index. -/
theorem check_overlap_spec_witness :
    (check_overlap 150 160 demoAnns = true ↔
      ∃ p ∈ demoAnns, (150 : ℤ) < p.2.1 ∧ p.1 < 160) :=
  check_overlap_spec.1 150 160 demoAnns (by norm_num [demoAnns, List.pairwise_cons])

/-- The counting fold leaves the tally unchanged when no read passes the
filters. -/
theorem count_fold_const (annIndex : List (String × List (ℤ × ℤ × String)))
    (mq : ℕ) (rpp : Bool) :
    ∀ (reads : List BamRead) (acc : ℕ × ℕ),
      (∀ r ∈ reads, passes_filters r mq rpp = false) →
      reads.foldl (count_read annIndex mq rpp) acc = acc := by
  intro reads
  induction reads with
  | nil => intro acc _; rfl
  | cons r rs ih =>
    intro acc h
    rw [List.foldl_cons]
    have hr : passes_filters r mq rpp = false := h r (List.mem_cons_self _ _)
    rw [count_read, hr]
    simp only [Bool.false_eq_true, if_false]
    exact ih acc fun x hx => h x (List.mem_cons_of_mem _ hx)

/-- Claim C10: whenever no read passes the unmapped/secondary/
supplementary, mapping quality and proper-pair filters,
`calculate_overlap_percentage` returns `(0, 0, 0)`: the division by
`total_reads` is guarded and never raises. -/
theorem calculate_overlap_percentage_no_reads :
    ∀ (reads : List BamRead) (annIndex : List (String × List (ℤ × ℤ × String)))
      (mq : ℕ) (rpp : Bool),
      (∀ r ∈ reads, passes_filters r mq rpp = false) →
      calculate_overlap_percentage reads annIndex mq rpp = (0, 0, 0) := by
  intro reads annIndex mq rpp h
  rw [calculate_overlap_percentage, count_fold_const annIndex mq rpp reads (0, 0) h]
  norm_num

/-- Witness for C10: a single unmapped read is filtered out and the
result is the guarded zero triple. -/
theorem calculate_overlap_percentage_no_reads_witness :
    calculate_overlap_percentage
      [{ is_unmapped := true, is_secondary := false, is_supplementary := false,
         is_proper_pair := false, mapping_quality := 60, reference_name := "chr1",
         reference_start := 0, reference_end := 100 }]
      [("chr1", demoAnns)] 0 false = (0, 0, 0) :=
  calculate_overlap_percentage_no_reads _ _ _ _ (by decide)

/-- Claim C7: a read whose chromosome is missing from the per-chromosome
index resolves to "no overlap" (false) for every state of the index, and
inside the counting loop such a read still increments the total count but
never the overlapping count; no error is raised (the query is total). -/
theorem read_overlaps_absent_chrom :
    (∀ (annIndex : List (String × List (ℤ × ℤ × String))) (chrom : String)
        (rs re : ℤ), annIndex.lookup chrom = none →
        read_overlaps annIndex chrom rs re = false)
    ∧ (∀ (annIndex : List (String × List (ℤ × ℤ × String))) (mq : ℕ) (rpp : Bool)
        (acc : ℕ × ℕ) (r : BamRead),
        annIndex.lookup r.reference_name = none →
        passes_filters r mq rpp = true →
        count_read annIndex mq rpp acc r = (acc.1 + 1, acc.2)) := by
  constructor
  · intro annIndex chrom rs re h
    rw [read_overlaps, h]
  · intro annIndex mq rpp acc r h hp
    rw [count_read, if_pos hp, read_overlaps, h]
    simp

/-- Witness for C7: chromosome chr2 is not indexed, so the query is
false. -/
theorem read_overlaps_absent_chrom_witness :
    read_overlaps [("chr1", demoAnns)] "chr2" 0 100 = false :=
  read_overlaps_absent_chrom.1 [("chr1", demoAnns)] "chr2" 0 100 (by decide)

/-- The rational coverage list is empty exactly when the count list is. -/
theorem covQ_eq_nil (xs : List ℕ) : covQ xs = [] ↔ xs = [] := by
  cases xs <;> simp [covQ]

/-- Claim C5: with a control, depletion efficiency is
`clip(1 - mean(treated)/mean(control), 0, 1)`, and 0 under the
`mean(control) == 0` guard (no division by zero); without a control it is
the zero-coverage fraction, and 0 on an empty treated array; with the
concrete arrays of the specification it is 1.0 and 0.0 respectively. -/
theorem depletion_efficiency_spec :
    (∀ (t c : List ℕ), c ≠ [] → t ≠ [] → qmean (covQ c) ≠ 0 →
        calculate_depletion_efficiency t (some c) =
          .fin (clip01 (1 - qmean (covQ t) / qmean (covQ c))))
    ∧ (∀ (t c : List ℕ), c ≠ [] → qmean (covQ c) = 0 →
        calculate_depletion_efficiency t (some c) = .fin 0)
    ∧ (∀ t : List ℕ, t ≠ [] →
        calculate_depletion_efficiency t none = .fin (qcount0 t / (t.length : ℚ)))
    ∧ calculate_depletion_efficiency [] none = .fin 0
    ∧ calculate_depletion_efficiency [0, 0, 0, 0] (some [10, 10, 10, 10]) = .fin 1
    ∧ calculate_depletion_efficiency [10, 10, 10, 10] (some [0, 0, 0, 0]) = .fin 0 := by
  have h1 : ∀ (t c : List ℕ), c ≠ [] → t ≠ [] → qmean (covQ c) ≠ 0 →
      calculate_depletion_efficiency t (some c) =
        .fin (clip01 (1 - qmean (covQ t) / qmean (covQ c))) := by
    intro t c hc ht hcm
    have hcq : covQ c ≠ [] := fun h => hc ((covQ_eq_nil c).mp h)
    have htq : covQ t ≠ [] := fun h => ht ((covQ_eq_nil t).mp h)
    rw [calculate_depletion_efficiency]
    simp only [npMeanQ, if_neg hcq, if_neg htq]
    rw [if_neg (by simp [hcm]), QFloat.div_fin_fin _ _ hcm, QFloat.sub_fin_fin,
      pyClip_eq]
  have h2 : ∀ (t c : List ℕ), c ≠ [] → qmean (covQ c) = 0 →
      calculate_depletion_efficiency t (some c) = .fin 0 := by
    intro t c hc hcm
    have hcq : covQ c ≠ [] := fun h => hc ((covQ_eq_nil c).mp h)
    rw [calculate_depletion_efficiency]
    simp only [npMeanQ, if_neg hcq]
    rw [if_pos (by simp [hcm])]
  refine ⟨h1, h2, ?_, ?_, ?_, ?_⟩
  · intro t ht
    rw [calculate_depletion_efficiency]
    rw [if_neg (by simpa [List.length_eq_zero] using ht)]
  · rw [calculate_depletion_efficiency]; norm_num
  · rw [h1 [0, 0, 0, 0] [10, 10, 10, 10] (by simp) (by simp)
      (by norm_num [qmean, covQ])]
    norm_num [qmean, covQ, clip01]
  · exact h2 [10, 10, 10, 10] [0, 0, 0, 0] (by simp) (by norm_num [qmean, covQ])

/-- Witness for C5 at a concrete treated/control pair with nonzero
control mean. -/
theorem depletion_efficiency_spec_witness :
    calculate_depletion_efficiency [1, 2, 3, 3] (some [3, 3, 3, 3]) =
      .fin (clip01 (1 - qmean (covQ [1, 2, 3, 3]) / qmean (covQ [3, 3, 3, 3]))) :=
  depletion_efficiency_spec.1 [1, 2, 3, 3] [3, 3, 3, 3] (by decide) (by decide)
    (by norm_num [qmean, covQ])

/-- A sum of nonnegative rationals vanishes exactly when every term does. -/
theorem sum_nonneg_eq_zero_iff :
    ∀ (l : List ℚ), (∀ x ∈ l, 0 ≤ x) → (l.sum = 0 ↔ ∀ x ∈ l, x = 0) := by
  intro l
  induction l with
  | nil => simp
  | cons a t ih =>
    intro h
    have ha : 0 ≤ a := h a (List.mem_cons_self _ _)
    have ht : ∀ x ∈ t, 0 ≤ x := fun x hx => h x (List.mem_cons_of_mem _ hx)
    have hts : 0 ≤ t.sum := List.sum_nonneg ht
    rw [List.sum_cons]
    constructor
    · intro h0
      have haz : a = 0 := by linarith
      have htz : t.sum = 0 := by linarith
      intro x hx
      rcases List.mem_cons.1 hx with rfl | hx
      · exact haz
      · exact (ih ht).mp htz x hx
    · intro hall
      have haz : a = 0 := hall a (List.mem_cons_self _ _)
      have htz : t.sum = 0 :=
        (ih ht).mpr fun x hx => hall x (List.mem_cons_of_mem _ hx)
      rw [haz, htz, add_zero]

/-- Entries of a coverage list are nonnegative rationals. -/
theorem covQ_nonneg (xs : List ℕ) : ∀ x ∈ covQ xs, (0 : ℚ) ≤ x := by
  intro x hx
  simp only [covQ, List.mem_map] at hx
  obtain ⟨n, _, rfl⟩ := hx
  exact Nat.cast_nonneg n

/-- The mean of a coverage list is nonnegative. -/
theorem qmean_covQ_nonneg (xs : List ℕ) : 0 ≤ qmean (covQ xs) := by
  unfold qmean
  exact div_nonneg (List.sum_nonneg (covQ_nonneg xs)) (by positivity)

/-- The population variance is nonnegative. -/
theorem pvarQ_nonneg (xs : List ℚ) : 0 ≤ pvarQ xs := by
  unfold pvarQ
  refine div_nonneg (List.sum_nonneg ?_) (by positivity)
  intro x hx
  simp only [List.mem_map] at hx
  obtain ⟨y, _, rfl⟩ := hx
  positivity

/-- For a nonempty list, the population variance vanishes exactly when
every entry equals the mean. -/
theorem pvarQ_eq_zero_iff (xs : List ℚ) (hne : xs ≠ []) :
    pvarQ xs = 0 ↔ ∀ x ∈ xs, x = qmean xs := by
  have hlen : (xs.length : ℚ) ≠ 0 := by
    have h0 : xs.length ≠ 0 := fun h => hne (List.length_eq_zero.mp h)
    exact_mod_cast h0
  unfold pvarQ
  rw [div_eq_zero_iff]
  have hsq : ∀ y ∈ xs.map fun x => (x - qmean xs) ^ 2, (0 : ℚ) ≤ y := by
    intro y hy
    simp only [List.mem_map] at hy
    obtain ⟨x, _, rfl⟩ := hy
    positivity
  constructor
  · rintro (hsum | habs)
    · intro x hx
      have := (sum_nonneg_eq_zero_iff _ hsq).mp hsum ((x - qmean xs) ^ 2)
        (List.mem_map_of_mem _ hx)
      have hx0 : x - qmean xs = 0 := by
        exact pow_eq_zero_iff (by norm_num) |>.mp this
      linarith
    · exact absurd habs hlen
  · intro hall
    left
    refine (sum_nonneg_eq_zero_iff _ hsq).mpr ?_
    intro y hy
    simp only [List.mem_map] at hy
    obtain ⟨x, hx, rfl⟩ := hy
    rw [hall x hx]
    ring

/-- Claim C6: uniformity is 0 for an empty or zero-mean coverage array;
otherwise it equals `1/(1+cv)` with `cv = std/mean` (population standard
deviation), lies in `(0, 1]`, and equals 1 exactly for perfectly flat
coverage; `Uniformity([5,5,5,5]) = 1`. -/
theorem uniformity_spec :
    (∀ cov : List ℕ, cov = [] ∨ qmean (covQ cov) = 0 → calculate_uniformity cov = 0)
    ∧ (∀ cov : List ℕ, cov ≠ [] → qmean (covQ cov) ≠ 0 →
        calculate_uniformity cov =
          1 / (1 + Real.sqrt (pvarQ (covQ cov)) / (qmean (covQ cov) : ℝ))
        ∧ 0 < calculate_uniformity cov ∧ calculate_uniformity cov ≤ 1
        ∧ (calculate_uniformity cov = 1 ↔ ∀ x ∈ cov, (x : ℚ) = qmean (covQ cov)))
    ∧ calculate_uniformity [5, 5, 5, 5] = 1 := by
  have h1 : ∀ cov : List ℕ, cov = [] ∨ qmean (covQ cov) = 0 →
      calculate_uniformity cov = 0 := by
    intro cov h
    rw [calculate_uniformity, if_pos h]
  have h2 : ∀ cov : List ℕ, cov ≠ [] → qmean (covQ cov) ≠ 0 →
      calculate_uniformity cov =
        1 / (1 + Real.sqrt (pvarQ (covQ cov)) / (qmean (covQ cov) : ℝ))
      ∧ 0 < calculate_uniformity cov ∧ calculate_uniformity cov ≤ 1
      ∧ (calculate_uniformity cov = 1 ↔ ∀ x ∈ cov, (x : ℚ) = qmean (covQ cov)) := by
    intro cov hne hm0
    have heq : calculate_uniformity cov =
        1 / (1 + Real.sqrt (pvarQ (covQ cov)) / (qmean (covQ cov) : ℝ)) := by
      rw [calculate_uniformity, if_neg (by simp [hne, hm0])]
    have hm : (0 : ℚ) < qmean (covQ cov) :=
      lt_of_le_of_ne (qmean_covQ_nonneg cov) (Ne.symm hm0)
    have hmR : (0 : ℝ) < ((qmean (covQ cov) : ℚ) : ℝ) := by exact_mod_cast hm
    have hvQ : (0 : ℚ) ≤ pvarQ (covQ cov) := pvarQ_nonneg _
    have hvR : (0 : ℝ) ≤ ((pvarQ (covQ cov) : ℚ) : ℝ) := by exact_mod_cast hvQ
    have hcv : (0 : ℝ) ≤ Real.sqrt (pvarQ (covQ cov)) / (qmean (covQ cov) : ℝ) :=
      div_nonneg (Real.sqrt_nonneg _) hmR.le
    set cv := Real.sqrt (pvarQ (covQ cov)) / (qmean (covQ cov) : ℝ) with hcvdef
    have hden : (0 : ℝ) < 1 + cv := by linarith
    refine ⟨heq, ?_, ?_, ?_⟩
    · rw [heq]; positivity
    · rw [heq]
      rw [div_le_one hden]
      linarith
    · rw [heq]
      have hiff1 : 1 / (1 + cv) = 1 ↔ cv = 0 := by
        constructor
        · intro h
          field_simp at h
          linarith
        · intro h
          rw [h]
          norm_num
      have hiff2 : cv = 0 ↔ Real.sqrt (pvarQ (covQ cov)) = 0 := by
        rw [hcvdef, div_eq_zero_iff]
        constructor
        · rintro (h | h)
          · exact h
          · exact absurd h (ne_of_gt hmR)
        · exact fun h => Or.inl h
      have hiff3 : Real.sqrt (pvarQ (covQ cov)) = 0 ↔ pvarQ (covQ cov) = 0 := by
        rw [Real.sqrt_eq_zero']
        constructor
        · intro h
          exact_mod_cast le_antisymm (by exact_mod_cast h) hvQ
        · intro h
          rw [h]
          norm_num
      have hiff4 : pvarQ (covQ cov) = 0 ↔ ∀ x ∈ cov, (x : ℚ) = qmean (covQ cov) := by
        rw [pvarQ_eq_zero_iff _ (fun h => hne ((covQ_eq_nil cov).mp h))]
        constructor
        · intro h x hx
          exact h (x : ℚ) (List.mem_map_of_mem _ hx)
        · intro h y hy
          obtain ⟨x, hx, rfl⟩ := List.mem_map.mp hy
          exact h x hx
      rw [hiff1, hiff2, hiff3, hiff4]
  refine ⟨h1, h2, ?_⟩
  have h5 : qmean (covQ [5, 5, 5, 5]) = 5 := by
    norm_num [qmean, covQ]
  exact (h2 [5, 5, 5, 5] (by simp) (by rw [h5]; norm_num)).2.2.2.mpr
    (by intro x hx; rw [h5]; simp at hx; simp [hx])

/-- Witness for C6: the guard case at the empty coverage array. -/
theorem uniformity_spec_witness : calculate_uniformity [] = 0 :=
  uniformity_spec.1 [] (Or.inl rfl)

open Classical in
/-- Claim C8: with population mean/std z-scores that default to 0 on a
zero standard deviation, a target is a high performer iff both z-scores
exceed `n_std` and a low performer iff either is below `-n_std`; for
positive `n_std` no target is both, and when both standard deviations are
zero no target is flagged at all. -/
theorem identify_outliers_spec :
    ∀ (ms : List DepletionMetrics) (n_std : ℝ), 0 < n_std →
      (∀ m, ¬(isHighPerformer ms n_std m ∧ isLowPerformer ms n_std m))
      ∧ (depletion_std ms = 0 → uniformity_std ms = 0 →
          identify_outliers ms n_std = ([], [])) := by
  intro ms n h
  constructor
  · rintro m ⟨⟨hd, hu⟩, hl⟩
    rcases hl with hl | hl
    · linarith
    · linarith
  · intro hds hus
    have hz : ∀ m, depletionZ ms m = 0 := by
      intro m
      rw [depletionZ, if_neg]
      rw [hds]
      exact lt_irrefl 0
    have huz : ∀ m, uniformityZ ms m = 0 := by
      intro m
      rw [uniformityZ, if_neg]
      rw [hus]
      exact lt_irrefl 0
    have hhigh : ∀ m ∈ ms, ¬ isHighPerformer ms n m := by
      rintro m _ ⟨h1, _⟩
      rw [hz m] at h1
      linarith
    have hlow : ∀ m ∈ ms, ¬ isLowPerformer ms n m := by
      rintro m _ (h1 | h1)
      · rw [hz m] at h1; linarith
      · rw [huz m] at h1; linarith
    have e1 : (ms.filter fun m => decide (isHighPerformer ms n m)) = [] :=
      List.filter_eq_nil_iff.mpr fun a ha => by simpa using hhigh a ha
    have e2 : (ms.filter fun m => decide (isLowPerformer ms n m)) = [] :=
      List.filter_eq_nil_iff.mpr fun a ha => by simpa using hlow a ha
    rw [identify_outliers, e1, e2]
    rfl

/-- Witness for C8: at a singleton metrics list and threshold 2, the
record is not simultaneously a high and a low performer. -/
theorem identify_outliers_spec_witness :
    ¬(isHighPerformer [mSampleA] 2 mSampleA ∧ isLowPerformer [mSampleA] 2 mSampleA) :=
  (identify_outliers_spec [mSampleA] 2 (by norm_num)).1 mSampleA

theorem RFloat.sub_swap (a b : RFloat) :
    RFloat.sub b a = RFloat.neg (RFloat.sub a b) := by
  cases a <;> cases b <;> simp [RFloat.sub, RFloat.neg]

theorem RFloat.add_comm' (a b : RFloat) : RFloat.add a b = RFloat.add b a := by
  cases a <;> cases b <;> simp [RFloat.add, add_comm]

theorem RFloat.div_neg_left (a b : RFloat) :
    RFloat.div (RFloat.neg a) b = RFloat.neg (RFloat.div a b) := by
  cases a with
  | nan => cases b <;> rfl
  | fin x =>
    cases b with
    | nan => rfl
    | fin y =>
      by_cases hy : y = 0
      · simp [RFloat.div, RFloat.neg, hy]
      · simp [RFloat.div, RFloat.neg, hy, neg_div]

theorem RFloat.abs_neg' (a : RFloat) : RFloat.abs (RFloat.neg a) = RFloat.abs a := by
  cases a <;> simp [RFloat.abs, RFloat.neg, abs_neg]

/-- The pooled variance is symmetric in the two groups. -/
theorem pooledVarT_comm (xs ys : List ℚ) : pooledVarT ys xs = pooledVarT xs ys := by
  unfold pooledVarT
  rw [RFloat.add_comm']
  congr 1
  ring_nf

/-- Swapping the groups negates the t statistic. -/
theorem tStatistic_swap (xs ys : List ℚ) :
    tStatistic ys xs = RFloat.neg (tStatistic xs ys) := by
  unfold tStatistic
  rw [RFloat.sub_swap, pooledVarT_comm]
  rw [show (1 / (ys.length : ℝ) + 1 / (xs.length : ℝ))
        = (1 / (xs.length : ℝ) + 1 / (ys.length : ℝ)) from by ring]
  exact RFloat.div_neg_left _ _

/-- Swapping the groups negates Cohen's d. -/
theorem calculate_cohens_d_swap (xs ys : List ℚ) :
    calculate_cohens_d ys xs = RFloat.neg (calculate_cohens_d xs ys) := by
  unfold calculate_cohens_d
  rw [pooledVarT_comm]
  by_cases hp : RFloat.sqrtF (pooledVarT xs ys) = .fin 0
  · rw [if_pos hp, if_pos hp]
    simp [RFloat.neg]
  · rw [if_neg hp, if_neg hp, RFloat.sub_swap, RFloat.div_neg_left]

/-- One comparison row with the groups swapped is the swapped row. -/
theorem mkComparison_swap (sf : RFloat → ℤ → RFloat)
    (g1 g2 : List DepletionMetrics) (alpha : ℚ)
    (attr : DepletionMetrics → ℚ) (nm : String) :
    mkComparison sf g2 g1 alpha attr nm =
      swapComparison (mkComparison sf g1 g2 alpha attr nm) := by
  unfold mkComparison swapComparison
  simp only
  rw [tStatistic_swap, calculate_cohens_d_swap, RFloat.abs_neg']
  rw [show ((g2.length : ℤ) + (g1.length : ℤ) - 2)
        = ((g1.length : ℤ) + (g2.length : ℤ) - 2) from by ring]

/-- Claim C9: swapping the two groups in `compare_groups` swaps the
reported means and standard deviations, negates each t statistic and
Cohen's d effect size, and leaves the metric name, `|t|`, the p value and
the significance flag unchanged, for every survival function, pair of
groups and alpha. -/
theorem compare_groups_swap :
    ∀ (sf : RFloat → ℤ → RFloat) (g1 g2 : List DepletionMetrics) (alpha : ℚ),
      compare_groups sf g2 g1 alpha = (compare_groups sf g1 g2 alpha).map swapComparison
      ∧ (compare_groups sf g2 g1 alpha).map (fun r => RFloat.abs r.t_statistic)
          = (compare_groups sf g1 g2 alpha).map (fun r => RFloat.abs r.t_statistic) := by
  intro sf g1 g2 alpha
  have h : compare_groups sf g2 g1 alpha
      = (compare_groups sf g1 g2 alpha).map swapComparison := by
    unfold compare_groups
    rw [List.map_map]
    exact List.map_congr_left fun pr _ => mkComparison_swap sf g1 g2 alpha pr.1 pr.2
  refine ⟨h, ?_⟩
  rw [h, List.map_map]
  refine List.map_congr_left ?_
  intro r _
  simp [swapComparison, RFloat.abs_neg']

/-- The coverage array always has length `stop - start` (0 when the
target is empty). -/
theorem get_coverage_length (s e : ℤ) (cols : List (ℤ × ℕ)) :
    (get_coverage s e cols).length = (e - s).toNat := by
  simp [get_coverage]

/-- An empty target region yields the empty coverage array. -/
theorem get_coverage_nil (s : ℤ) (cols : List (ℤ × ℕ)) :
    get_coverage s s cols = [] := by
  simp [get_coverage]

/-- A nonempty target region yields a nonempty coverage array. -/
theorem get_coverage_ne_nil (s e : ℤ) (cols : List (ℤ × ℕ)) (h : s < e) :
    get_coverage s e cols ≠ [] := by
  intro hnil
  have hl : (get_coverage s e cols).length = (e - s).toNat :=
    get_coverage_length s e cols
  rw [hnil] at hl
  simp at hl
  omega

/-- Python's clip always produces a finite value, whatever the input
float is: `min(1.0, nan)` is `1.0`. -/
theorem pyClip_isFin (x : QFloat) :
    ∃ q, QFloat.pyMax (.fin 0) (QFloat.pyMin (.fin 1) x) = .fin q := by
  cases x with
  | nan =>
    refine ⟨1, ?_⟩
    norm_num [QFloat.pyMin, QFloat.pyMax, QFloat.ltB]
  | fin a => exact ⟨clip01 a, pyClip_eq a⟩

/-- The depletion efficiency is always a finite value: every branch is
guarded or clipped. -/
theorem depletion_isFin (t : List ℕ) (c : Option (List ℕ)) :
    ∃ q, calculate_depletion_efficiency t c = .fin q := by
  cases c with
  | some c =>
    rw [calculate_depletion_efficiency]
    by_cases h : npMeanQ (covQ c) = .fin 0
    · rw [if_pos h]
      exact ⟨0, rfl⟩
    · rw [if_neg h]
      exact pyClip_isFin _
  | none =>
    rw [calculate_depletion_efficiency]
    by_cases h : t.length = 0
    · rw [if_pos h]
      exact ⟨0, rfl⟩
    · rw [if_neg h]
      exact ⟨_, rfl⟩

/-- Claim C2 (amended): on an empty target (`end == start`) with no
control, `analyze_grna_target` returns without raising a record whose
four guarded metrics are 0 but whose mean and median are NaN — not the
all-zero record; with a control and an empty target the depletion
efficiency is even 1; and for a nonempty target every one of the six
metrics is finite. -/
theorem analyze_grna_target_empty_and_finite :
    (∀ (t : GRNATarget) (cols : List (ℤ × ℕ)), t.stop = t.start →
        analyze_grna_target t cols none =
          { grna_name := t.name
            target_region := t.chrom ++ ":" ++ toString t.start ++ "-" ++ toString t.stop
            mean_coverage := .nan
            median_coverage := .nan
            depletion_efficiency := .fin 0
            coverage_uniformity := .fin 0
            zero_coverage_fraction := .fin 0
            coefficient_of_variation := .fin 0 })
    ∧ (∀ (t : GRNATarget) (cols ccols : List (ℤ × ℕ)), t.stop = t.start →
        (analyze_grna_target t cols (some ccols)).depletion_efficiency = .fin 1)
    ∧ (∀ (t : GRNATarget) (cols : List (ℤ × ℕ)) (ctrl : Option (List (ℤ × ℕ))),
        t.start < t.stop →
        (analyze_grna_target t cols ctrl).mean_coverage.isFin
        ∧ (analyze_grna_target t cols ctrl).median_coverage.isFin
        ∧ (analyze_grna_target t cols ctrl).depletion_efficiency.isFin
        ∧ (analyze_grna_target t cols ctrl).coverage_uniformity.isFin
        ∧ (analyze_grna_target t cols ctrl).zero_coverage_fraction.isFin
        ∧ (analyze_grna_target t cols ctrl).coefficient_of_variation.isFin) := by
  refine ⟨?_, ?_, ?_⟩
  · intro t cols h
    have hc : get_coverage t.start t.stop cols = [] := by
      rw [h]
      exact get_coverage_nil t.start cols
    simp [analyze_grna_target, hc, npMeanN, npMeanR, npMedianN, covQ,
      calculate_uniformity, calculate_depletion_efficiency, QFloat.toR,
      RFloat.pyLt, qmean]
  · intro t cols ccols h
    have hc : get_coverage t.start t.stop cols = [] := by
      rw [h]
      exact get_coverage_nil t.start cols
    have hd : calculate_depletion_efficiency [] (some []) = .fin 1 := by
      rw [calculate_depletion_efficiency]
      rw [if_neg (by simp [npMeanQ, covQ])]
      norm_num [npMeanQ, covQ, QFloat.div, QFloat.sub, QFloat.pyMin,
        QFloat.pyMax, QFloat.ltB]
    simp only [analyze_grna_target, hc]
    rw [show Option.map (get_coverage t.start t.stop) (some ccols)
          = some (get_coverage t.start t.stop ccols) from rfl]
    rw [show get_coverage t.start t.stop ccols = [] from by
      rw [h]; exact get_coverage_nil t.start ccols]
    rw [hd]
    simp [QFloat.toR]
  · intro t cols ctrl h
    have htne : get_coverage t.start t.stop cols ≠ [] :=
      get_coverage_ne_nil t.start t.stop cols h
    have htq : covQ (get_coverage t.start t.stop cols) ≠ [] :=
      fun hx => htne ((covQ_eq_nil _).mp hx)
    obtain ⟨q, hq⟩ := depletion_isFin (get_coverage t.start t.stop cols)
      (ctrl.map (get_coverage t.start t.stop))
    refine ⟨?_, ?_, ?_, ?_, ?_, ?_⟩
    · simp [analyze_grna_target, npMeanN, npMeanR, htq, RFloat.isFin]
    · simp [analyze_grna_target, npMedianN, htne, RFloat.isFin]
    · simp only [analyze_grna_target]
      rw [hq]
      simp [QFloat.toR, RFloat.isFin]
    · simp [analyze_grna_target, RFloat.isFin]
    · simp [analyze_grna_target, RFloat.isFin]
    · simp only [analyze_grna_target]
      split <;> trivial

/-- Counterexample to C2 as stated: on the empty target `chr1:100-100`
with no control, the analyzer's record has NaN mean coverage, so it is
neither all-zero nor all-finite. -/
theorem analyze_grna_target_not_zero_default :
    (analyze_grna_target tEmpty [] none).mean_coverage = RFloat.nan
    ∧ analyze_grna_target tEmpty [] none ≠ zero_metrics_record tEmpty := by
  have h0 : get_coverage tEmpty.start tEmpty.stop [] = [] := by
    simp [tEmpty, get_coverage]
  have hmean : (analyze_grna_target tEmpty [] none).mean_coverage = RFloat.nan := by
    simp [analyze_grna_target, h0, npMeanN, npMeanR, covQ]
  refine ⟨hmean, ?_⟩
  intro h
  have hfield := congrArg DepletionMetricsR.mean_coverage h
  rw [hmean] at hfield
  rw [zero_metrics_record] at hfield
  exact RFloat.noConfusion hfield

/-- Witness for the amended C2 at the concrete empty target. -/
theorem analyze_grna_target_empty_and_finite_witness :
    analyze_grna_target tEmpty [] none =
      { grna_name := tEmpty.name
        target_region := tEmpty.chrom ++ ":" ++ toString tEmpty.start ++ "-"
          ++ toString tEmpty.stop
        mean_coverage := .nan
        median_coverage := .nan
        depletion_efficiency := .fin 0
        coverage_uniformity := .fin 0
        zero_coverage_fraction := .fin 0
        coefficient_of_variation := .fin 0 } :=
  analyze_grna_target_empty_and_finite.1 tEmpty [] (by norm_num [tEmpty])

theorem RFloat.sub_nan_left (b : RFloat) : RFloat.sub .nan b = .nan := by
  cases b <;> rfl

theorem RFloat.sub_nan_right (a : RFloat) : RFloat.sub a .nan = .nan := by
  cases a <;> rfl

theorem RFloat.add_nan_left (b : RFloat) : RFloat.add .nan b = .nan := by
  cases b <;> rfl

theorem RFloat.add_nan_right (a : RFloat) : RFloat.add a .nan = .nan := by
  cases a <;> rfl

theorem RFloat.mul_nan_left (b : RFloat) : RFloat.mul .nan b = .nan := by
  cases b <;> rfl

theorem RFloat.mul_nan_right (a : RFloat) : RFloat.mul a .nan = .nan := by
  cases a <;> rfl

theorem RFloat.div_nan_left (b : RFloat) : RFloat.div .nan b = .nan := by
  cases b <;> rfl

theorem RFloat.div_nan_right (a : RFloat) : RFloat.div a .nan = .nan := by
  cases a <;> rfl

theorem RFloat.sqrtF_nan : RFloat.sqrtF .nan = .nan := rfl

theorem RFloat.abs_nan : RFloat.abs .nan = .nan := rfl

theorem RFloat.pyLt_nan_left (b : RFloat) : RFloat.pyLt .nan b = False := by
  cases b <;> rfl

theorem RFloat.pyLt_nan_right (a : RFloat) : RFloat.pyLt a .nan = False := by
  cases a <;> rfl

/-- Counterexample to C3 as stated: on the empty metrics collection no
`EmptyInputError` appears anywhere.  `generate_summary_statistics` fails
with `ValueError` (from `np.min` on a zero-size array),
`correlation_analysis` returns the 5 x 5 all-NaN matrix without failing,
and `compare_groups` on two empty groups returns its four results with
NaN t statistics and `significant = False` without failing. -/
theorem no_empty_input_error :
    generate_summary_statistics [] = Except.error PyError.valueError
    ∧ generate_summary_statistics [] ≠ Except.error PyError.emptyInputError
    ∧ correlation_analysis [] = List.replicate 5 (List.replicate 5 RFloat.nan)
    ∧ (compare_groups sfId [] [] (1 / 20)).map (fun r => r.t_statistic)
        = [.nan, .nan, .nan, .nan]
    ∧ (compare_groups sfId [] [] (1 / 20)).map (fun r => r.significant)
        = [False, False, False, False] := by
  refine ⟨by simp [generate_summary_statistics], by simp [generate_summary_statistics],
    ?_, ?_, ?_⟩
  · simp [correlation_analysis, corr_columns, pearsonR, List.replicate]
  · simp [compare_groups, metricAttrs, mkComparison, tStatistic, pooledVarT,
      npMeanR, npVar1, sfId, RFloat.sub_nan_left, RFloat.mul_nan_right,
      RFloat.add_nan_left, RFloat.div_nan_left, RFloat.sqrtF_nan, RFloat.abs_nan]
  · simp [compare_groups, metricAttrs, mkComparison, tStatistic, pooledVarT,
      npMeanR, npVar1, sfId, RFloat.sub_nan_left, RFloat.mul_nan_right,
      RFloat.add_nan_left, RFloat.div_nan_left, RFloat.sqrtF_nan, RFloat.abs_nan,
      RFloat.pyLt_nan_left]

/-- Claim C3 (amended): `generate_summary_statistics` fails exactly on the
empty metrics collection and the error is `ValueError`, never an
`EmptyInputError`; `correlation_analysis` always returns its 5-row matrix
and `compare_groups` always returns its four per-metric results, neither
ever raising. -/
theorem aggregate_stats_errors :
    (∀ ms : List DepletionMetrics,
        generate_summary_statistics ms = Except.error PyError.valueError ↔ ms = [])
    ∧ (∀ (ms : List DepletionMetrics) (e : PyError),
        generate_summary_statistics ms = Except.error e → e = PyError.valueError)
    ∧ (∀ ms : List DepletionMetrics, (correlation_analysis ms).length = 5)
    ∧ (∀ (sf : RFloat → ℤ → RFloat) (g1 g2 : List DepletionMetrics) (alpha : ℚ),
        (compare_groups sf g1 g2 alpha).length = 4) := by
  refine ⟨?_, ?_, ?_, ?_⟩
  · intro ms
    by_cases h : ms = [] <;> simp [generate_summary_statistics, h]
  · intro ms e
    by_cases h : ms = [] <;> simp [generate_summary_statistics, h]
    intro he
    exact he.symm
  · intro ms
    simp [correlation_analysis, corr_columns]
  · intro sf g1 g2 alpha
    simp [compare_groups, metricAttrs]

/-- Witness for the amended C3 at the empty collection. -/
theorem aggregate_stats_errors_witness :
    generate_summary_statistics [] = Except.error PyError.valueError :=
  (aggregate_stats_errors.1 []).mpr rfl

/-- The descending sort is sorted: later rows never have a larger key. -/
theorem sortDesc_pairwise {α : Type} (key : α → ℚ) (l : List α) :
    (sortDesc key l).Pairwise fun a b => key b ≤ key a := by
  have hs := @List.sorted_mergeSort _ (fun a b => decide (key a ≤ key b))
    (fun a b c hab hbc => by
      simp only [decide_eq_true_eq] at *
      exact le_trans hab hbc)
    (fun a b => by
      simp only [Bool.or_eq_true, decide_eq_true_eq]
      exact le_total (key a) (key b))
    l
  unfold sortDesc
  have := List.pairwise_reverse.mpr hs
  exact this.imp fun h => by simpa using h

/-- The descending sort is a permutation of the input. -/
theorem sortDesc_perm {α : Type} (key : α → ℚ) (l : List α) :
    (sortDesc key l).Perm l :=
  (List.reverse_perm _).trans (List.mergeSort_perm l _)

/-- Two sorted-descending permutations of each other with pairwise
distinct keys are equal. -/
theorem sorted_desc_unique {α : Type} (key : α → ℚ) :
    ∀ (l1 l2 : List α), l1.Perm l2 →
      l1.Pairwise (fun a b => key b ≤ key a) →
      l2.Pairwise (fun a b => key b ≤ key a) →
      (l1.map key).Nodup → l1 = l2 := by
  intro l1 l2 hperm h1 h2 hnd
  have hnd1 : l1.Pairwise fun a b => key a ≠ key b := List.pairwise_map.mp hnd
  have hnd2' : (l2.map key).Nodup := ((hperm.map key).nodup_iff).mp hnd
  have hnd2 : l2.Pairwise fun a b => key a ≠ key b := List.pairwise_map.mp hnd2'
  have hs1 : l1.Pairwise fun a b => key b < key a :=
    (h1.and hnd1).imp fun h => lt_of_le_of_ne h.1 (Ne.symm h.2)
  have hs2 : l2.Pairwise fun a b => key b < key a :=
    (h2.and hnd2).imp fun h => lt_of_le_of_ne h.1 (Ne.symm h.2)
  haveI : IsAntisymm α fun a b => key b < key a :=
    ⟨fun a b hab hba => absurd (lt_trans hab hba) (lt_irrefl _)⟩
  exact List.eq_of_perm_of_sorted hperm hs1 hs2

/-- The ranks attached after sorting are `k, k+1, ...`. -/
theorem attachRanks_ranks :
    ∀ (rows : List ScoreRow) (k : ℕ),
      (attachRanks k rows).map (fun r => r.rank) = List.range' k rows.length := by
  intro rows
  induction rows with
  | nil => intro k; rfl
  | cons s ss ih =>
    intro k
    rw [attachRanks, List.map_cons, ih (k + 1)]
    rfl

/-- Dropping the rank column recovers the sorted score rows. -/
theorem attachRanks_strip :
    ∀ (rows : List ScoreRow) (k : ℕ),
      (attachRanks k rows).map stripRank = rows := by
  intro rows
  induction rows with
  | nil => intro k; rfl
  | cons s ss ih =>
    intro k
    rw [attachRanks, List.map_cons, ih (k + 1)]
    rfl

/-- Attaching ranks preserves the descending order of composite scores. -/
theorem attachRanks_pairwise (rows : List ScoreRow) (k : ℕ)
    (h : rows.Pairwise fun a b => b.composite_score ≤ a.composite_score) :
    (attachRanks k rows).Pairwise
      fun a b => b.composite_score ≤ a.composite_score := by
  have h2 : ((attachRanks k rows).map stripRank).Pairwise
      fun a b => b.composite_score ≤ a.composite_score := by
    rw [attachRanks_strip]
    exact h
  exact (List.pairwise_map.mp h2).imp fun h => h

/-- The descending sort of a two-element list whose first key is not
larger puts the second element first: pandas' reversal of the stable
ascending argsort reverses ties. -/
theorem sortDesc_pair_eq {α : Type} (key : α → ℚ) (a b : α) (h : key a ≤ key b) :
    sortDesc key [a, b] = [b, a] := by
  unfold sortDesc
  rw [List.mergeSort_of_sorted]
  · rfl
  · exact List.pairwise_cons.mpr ⟨fun x hx => by
      rcases List.mem_singleton.mp hx with rfl
      exact decide_eq_true h, List.pairwise_singleton _ _⟩

/-- Re-ranking the descending-sorted metrics produces the same rows when
the composite scores are pairwise distinct. -/
theorem rank_rows_idem (ms : List DepletionMetrics)
    (hnd : (ms.map (compositeScore defaultWeights)).Nodup) :
    rank_rows defaultWeights (sortDesc (compositeScore defaultWeights) ms)
      = rank_rows defaultWeights ms := by
  unfold rank_rows
  congr 1
  have hperm1 : (sortDesc (fun r => r.composite_score)
      ((sortDesc (compositeScore defaultWeights) ms).map (scoreRow defaultWeights))).Perm
      (ms.map (scoreRow defaultWeights)) :=
    (sortDesc_perm _ _).trans
      ((sortDesc_perm (compositeScore defaultWeights) ms).map (scoreRow defaultWeights))
  have hperm2 : (sortDesc (fun r => r.composite_score)
      (ms.map (scoreRow defaultWeights))).Perm (ms.map (scoreRow defaultWeights)) :=
    sortDesc_perm _ _
  refine sorted_desc_unique (fun r => r.composite_score) _ _
    (hperm1.trans hperm2.symm) (sortDesc_pairwise _ _) (sortDesc_pairwise _ _) ?_
  have hkey : ((ms.map (scoreRow defaultWeights)).map
      fun r => r.composite_score) = ms.map (compositeScore defaultWeights) := by
    rw [List.map_map]
    rfl
  have : ((sortDesc (fun r => r.composite_score)
      ((sortDesc (compositeScore defaultWeights) ms).map (scoreRow defaultWeights))).map
      fun r => r.composite_score).Perm (ms.map (compositeScore defaultWeights)) := by
    rw [← hkey]
    exact hperm1.map _
  exact (this.nodup_iff).mpr hnd

/-- Claim C4 (amended): on the empty metrics list `rank_grnas` fails with
pandas' `KeyError` (the empty frame has no `composite_score` column); on
a nonempty list it returns the score rows sorted non-increasingly by the
claimed composite score, with ranks 1..n attached after sorting, as a
permutation of the input's score rows; re-ranking the sorted metrics
list is idempotent when the composite scores are pairwise distinct.
(With ties the order is NOT the stable input order: pandas reverses the
ascending argsort, see the counterexample.) -/
theorem rank_grnas_spec :
    (rank_grnas defaultWeights [] = .error .keyError)
    ∧ (∀ ms : List DepletionMetrics, ms ≠ [] →
        rank_grnas defaultWeights ms = .ok (rank_rows defaultWeights ms)
        ∧ ((rank_rows defaultWeights ms).map (fun r => r.rank)
            = List.range' 1 ms.length)
        ∧ (rank_rows defaultWeights ms).Pairwise
            (fun a b => b.composite_score ≤ a.composite_score)
        ∧ ((rank_rows defaultWeights ms).map stripRank).Perm
            (ms.map (scoreRow defaultWeights)))
    ∧ (∀ m : DepletionMetrics, (scoreRow defaultWeights m).composite_score
        = defaultWeights.depletion * m.depletion_efficiency
          + defaultWeights.uniformity * m.coverage_uniformity
          + defaultWeights.zero_coverage * m.zero_coverage_fraction
          + defaultWeights.cv * (1 / (1 + m.coefficient_of_variation)))
    ∧ (∀ ms : List DepletionMetrics, ms ≠ [] →
        (ms.map (compositeScore defaultWeights)).Nodup →
        rank_grnas defaultWeights (sortDesc (compositeScore defaultWeights) ms)
          = rank_grnas defaultWeights ms) := by
  refine ⟨rfl, ?_, fun m => rfl, ?_⟩
  · intro ms hne
    refine ⟨by rw [rank_grnas, if_neg hne], ?_, ?_, ?_⟩
    · rw [rank_rows, attachRanks_ranks]
      congr 1
      rw [(sortDesc_perm _ _).length_eq, List.length_map]
    · exact attachRanks_pairwise _ _ (sortDesc_pairwise _ _)
    · rw [rank_rows, attachRanks_strip]
      exact (sortDesc_perm _ _).trans (List.Perm.refl _)
  · intro ms hne hnd
    have hne2 : sortDesc (compositeScore defaultWeights) ms ≠ [] := by
      intro h0
      have hlen := (sortDesc_perm (compositeScore defaultWeights) ms).length_eq
      rw [h0] at hlen
      exact hne (List.length_eq_zero.mp hlen.symm)
    rw [rank_grnas, rank_grnas, if_neg hne2, if_neg hne]
    exact congrArg Except.ok (rank_rows_idem ms hnd)

/-- Counterexample to C4 as stated: two records with equal composite
scores come out in REVERSED input order (the sort is not stable), and
re-ranking the reordered list flips them back, so ranking is not
idempotent on ties. -/
theorem rank_grnas_ties_not_stable :
    rank_grnas defaultWeights [mSampleA, mSampleB]
        = .ok (rank_rows defaultWeights [mSampleA, mSampleB])
    ∧ ((rank_rows defaultWeights [mSampleA, mSampleB]).map fun r => r.gRNA_name)
        = ["gB", "gA"]
    ∧ compositeScore defaultWeights mSampleA = compositeScore defaultWeights mSampleB
    ∧ mSampleA ≠ mSampleB
    ∧ rank_grnas defaultWeights
        (sortDesc (compositeScore defaultWeights) [mSampleA, mSampleB])
        ≠ rank_grnas defaultWeights [mSampleA, mSampleB] := by
  have hpair : sortDesc (fun r => r.composite_score)
      [scoreRow defaultWeights mSampleA, scoreRow defaultWeights mSampleB]
      = [scoreRow defaultWeights mSampleB, scoreRow defaultWeights mSampleA] :=
    sortDesc_pair_eq _ _ _ (le_of_eq rfl)
  have hnames : ((rank_rows defaultWeights [mSampleA, mSampleB]).map
      fun r => r.gRNA_name) = ["gB", "gA"] := by
    rw [rank_rows, List.map_cons, List.map_cons, List.map_nil, hpair]
    rfl
  have hmetrics : sortDesc (compositeScore defaultWeights) [mSampleA, mSampleB]
      = [mSampleB, mSampleA] :=
    sortDesc_pair_eq _ _ _ (le_of_eq rfl)
  have hswap : sortDesc (fun r => r.composite_score)
      [scoreRow defaultWeights mSampleB, scoreRow defaultWeights mSampleA]
      = [scoreRow defaultWeights mSampleA, scoreRow defaultWeights mSampleB] :=
    sortDesc_pair_eq _ _ _ (le_of_eq rfl)
  have hnames2 : ((rank_rows defaultWeights [mSampleB, mSampleA]).map
      fun r => r.gRNA_name) = ["gA", "gB"] := by
    rw [rank_rows, List.map_cons, List.map_cons, List.map_nil, hswap]
    rfl
  refine ⟨by rw [rank_grnas, if_neg (by simp)], hnames, rfl, ?_, ?_⟩
  · intro h
    have := congrArg DepletionMetrics.grna_name h
    simp [mSampleA, mSampleB] at this
  · intro h
    rw [hmetrics] at h
    rw [rank_grnas, rank_grnas, if_neg (by simp), if_neg (by simp)] at h
    have h2 := Except.ok.inj h
    have := congrArg (List.map fun r : RankRow => r.gRNA_name) h2
    rw [hnames, hnames2] at this
    simp at this

/-- Witness for the amended C4: on two records with distinct composite
scores, re-ranking the sorted list is idempotent. -/
theorem rank_grnas_spec_witness :
    rank_grnas defaultWeights
        (sortDesc (compositeScore defaultWeights) [mSampleA, mSampleC])
      = rank_grnas defaultWeights [mSampleA, mSampleC] :=
  (rank_grnas_spec.2.2.2) [mSampleA, mSampleC] (by simp) (by
    simp only [List.map_cons, List.map_nil, List.nodup_cons, List.mem_singleton,
      List.mem_nil_iff, List.nodup_nil, and_true, not_false_iff]
    norm_num [compositeScore, mSampleA, mSampleC, defaultWeights])
